import Mathlib

/-!
Verification of the web proxy in proxy.py.

The development shallowly embeds the proxy's pure logic: Python strings are
Lean Strings (operated on through their character lists, with structurally
recursive helpers mirroring the semantics of the Python string methods used
by the source), Python floats are exact rationals in normalized form (the
decimal literals handled by the proxy are all exactly representable at the
precision the program observes), the file system is an explicit value
threaded through the cache operations, sockets are finite lists of chunks
(the successive return values of recv, where exhaustion models the peer
closing the connection), and a raised Python exception is an Except error.
-/

/-- The character list underlying a string. -/
def chars (s : String) : List Char := s.data

/-- Rebuild a string from its character list. -/
def ofChars (l : List Char) : String := ⟨l⟩

/-- Whether the first list is a prefix of the second (decidable, executable). -/
def isPrefixL : List Char → List Char → Bool
  | [], _ => true
  | _ :: _, [] => false
  | a :: as, b :: bs => a = b && isPrefixL as bs

/-- Index of the first occurrence of pattern in a list, as in Python str.find. -/
def findSub : List Char → List Char → Option Nat
  | sep, [] => if sep.isEmpty then some 0 else none
  | sep, c :: rest =>
    if isPrefixL sep (c :: rest) then some 0
    else (findSub sep rest).map (· + 1)

/-- Fueled splitting worker for splitOnL. -/
def splitOnLAux (sep : List Char) : Nat → List Char → List (List Char)
  | 0, l => [l]
  | fuel + 1, l =>
    match findSub sep l with
    | none => [l]
    | some i => l.take i :: splitOnLAux sep fuel (l.drop (i + sep.length))

/-- Split a character list on every occurrence of a nonempty separator,
as in Python str.split with a separator argument. -/
def splitOnL (sep l : List Char) : List (List Char) :=
  splitOnLAux sep l.length l

/-- Python s.split(sep) on strings (sep nonempty). -/
def pySplit (sep s : String) : List String :=
  (splitOnL sep.data s.data).map ofChars

/-- Python sub in s (substring containment). -/
def pyContains (sub s : String) : Bool := (findSub sub.data s.data).isSome

/-- Python str.lower, on the ASCII range the proxy handles. -/
def pyLower (s : String) : String := ofChars (s.data.map Char.toLower)

/-- The whitespace characters stripped by Python str.strip and float parsing. -/
def isSpaceCh (c : Char) : Bool :=
  c = ' ' || c = '\t' || c = '\n' || c = '\r' || c = '\x0b' || c = '\x0c'

/-- Python str.strip. -/
def stripL (l : List Char) : List Char :=
  ((l.dropWhile isSpaceCh).reverse.dropWhile isSpaceCh).reverse

/-- Python str.strip on strings. -/
def pyStrip (s : String) : String := ofChars (stripL s.data)

/-- Value of a decimal digit character, if it is one. -/
def digitVal (c : Char) : Option Nat :=
  if c = '0' then some 0 else if c = '1' then some 1
  else if c = '2' then some 2 else if c = '3' then some 3
  else if c = '4' then some 4 else if c = '5' then some 5
  else if c = '6' then some 6 else if c = '7' then some 7
  else if c = '8' then some 8 else if c = '9' then some 9 else none

/-- Parse a nonempty all-digit character list as a natural number. -/
def digitsToNat : List Char → Option Nat
  | [] => none
  | l => l.foldl (fun acc c =>
      match acc, digitVal c with
      | some n, some d => some (n * 10 + d)
      | _, _ => none) (some 0)

/-- Python int(s): optional sign around a nonempty digit string, with
surrounding whitespace stripped; None models a raised ValueError. -/
def parsePyInt (s : String) : Option Int :=
  match stripL s.data with
  | '-' :: rest => (digitsToNat rest).map (fun n => -(n : Int))
  | '+' :: rest => (digitsToNat rest).map (fun n => (n : Int))
  | l => (digitsToNat l).map (fun n => (n : Int))

/-- An exact rational standing in for a Python float.  Kept normalized by
the smart constructor so that structural equality is numeric equality on
the decimal values the proxy manipulates. -/
structure PyFloat where
  num : Int
  den : Nat
deriving DecidableEq

/-- Fueled Euclidean gcd (structurally recursive, kernel-reducible). -/
def gcdF : Nat → Nat → Nat → Nat
  | 0, _, b => b
  | fuel + 1, a, b =>
    match a with
    | 0 => b
    | _ => gcdF fuel (b % a) a

/-- Normalizing constructor for PyFloat (denominator must be positive). -/
def pfMk (n : Int) (d : Nat) : PyFloat :=
  let g := gcdF (n.natAbs + 1) n.natAbs d
  if g = 0 then ⟨0, 1⟩ else ⟨n / (g : Int), d / g⟩

/-- Numeric comparison of PyFloat values (cross multiplication). -/
def pfLe (a b : PyFloat) : Bool := a.num * (b.den : Int) ≤ b.num * (a.den : Int)

/-- All characters of the list are decimal digits. -/
def allDigits (l : List Char) : Bool := l.all (fun c => (digitVal c).isSome)

/-- Digit-list value with empty lists allowed (value 0), used for the parts
around the decimal point. -/
def digitsVal0 (l : List Char) : Nat :=
  l.foldl (fun acc c => acc * 10 + (digitVal c).getD 0) 0

/-- Python float(s) restricted to the plain decimal forms the proxy can
meet: optional sign, digits, optional point and fraction digits, at least
one digit overall, surrounding whitespace stripped.  None models a raised
ValueError. -/
def parsePyFloat (s : String) : Option PyFloat :=
  let l := stripL s.data
  let core := fun (l : List Char) (sign : Int) =>
    match splitOnL ['.'] l with
    | [a] =>
      if allDigits a && !a.isEmpty then some (pfMk (sign * (digitsVal0 a : Int)) 1)
      else none
    | [a, b] =>
      if allDigits a && allDigits b && !(a.isEmpty && b.isEmpty) then
        some (pfMk (sign * ((digitsVal0 a * 10 ^ b.length + digitsVal0 b : Nat) : Int)) (10 ^ b.length))
      else none
    | _ => none
  match l with
  | '-' :: rest => core rest (-1)
  | '+' :: rest => core rest 1
  | _ => core l 1

/-- Fueled most-significant-first decimal digits of a natural number. -/
def natDigitsAux : Nat → Nat → List Char
  | 0, _ => []
  | fuel + 1, n =>
    let d :=
      if n % 10 = 0 then '0' else if n % 10 = 1 then '1'
      else if n % 10 = 2 then '2' else if n % 10 = 3 then '3'
      else if n % 10 = 4 then '4' else if n % 10 = 5 then '5'
      else if n % 10 = 6 then '6' else if n % 10 = 7 then '7'
      else if n % 10 = 8 then '8' else '9'
    if n < 10 then [d] else natDigitsAux fuel (n / 10) ++ [d]

/-- Decimal rendering of a natural number. -/
def natToStr (n : Nat) : String := ofChars (natDigitsAux (n + 1) n)

/-- Left-pad a digit list with zeros to the given width. -/
def padZeros (w : Nat) (l : List Char) : List Char :=
  List.replicate (w - l.length) '0' ++ l

/-- Python str of a float value: sign, integer part, point, minimal
fraction digits (always at least the trailing .0 Python prints for an
integral float). -/
def versionToString (v : PyFloat) : String :=
  let sign : String := if v.num < 0 then ("-") else ("")
  let a := v.num.natAbs
  match (List.range 41).find? (fun k => 10 ^ k % v.den = 0) with
  | some 0 => sign ++ natToStr a ++ "." ++ "0"
  | some k =>
    let m := a * (10 ^ k / v.den)
    sign ++ natToStr (m / 10 ^ k) ++ "." ++ ofChars (padZeros k (natDigitsAux (m % 10 ^ k + 1) (m % 10 ^ k)))
  | none => sign ++ natToStr a

/-- Insertion-ordered dictionary insert: replace the value in place when
the key is present, append otherwise (Python dict assignment). -/
def dictInsert (m : List (String × String)) (k v : String) : List (String × String) :=
  if m.any (fun p => p.1 = k) then
    m.map (fun p => if p.1 = k then (k, v) else p)
  else m ++ [(k, v)]

/-- Python dict.update: fold the new bindings into the map in order. -/
def dictUpdate (m news : List (String × String)) : List (String × String) :=
  news.foldl (fun acc p => dictInsert acc p.1 p.2) m

/-- Last index of a character in a list (Python str.rindex; None models
the ValueError it raises when absent). -/
def rindexChar (c : Char) : List Char → Option Nat
  | [] => none
  | x :: xs =>
    match rindexChar c xs with
    | some i => some (i + 1)
    | none => if x = c then some 0 else none


/-- Decidable equality of Except values, for evaluating the model. -/
instance instDecEqExcept {e a : Type} [DecidableEq e] [DecidableEq a] :
    DecidableEq (Except e a) := fun x y =>
  match x, y with
  | .ok u, .ok v =>
    match decEq u v with
    | isTrue h => isTrue (congrArg Except.ok h)
    | isFalse h => isFalse (fun hh => h (Except.ok.inj hh))
  | .error u, .error v =>
    match decEq u v with
    | isTrue h => isTrue (congrArg Except.error h)
    | isFalse h => isFalse (fun hh => h (Except.error.inj hh))
  | .ok _, .error _ => isFalse (fun hh => Except.noConfusion hh)
  | .error _, .ok _ => isFalse (fun hh => Except.noConfusion hh)

/-! ## Python exceptions and the file system -/

/-- The kinds of Python exception the modelled code can raise. -/
inductive PyErr where
  | valueError
  | indexError
  | keyError
  | isADirectoryError
  | fileNotFoundError
  | fileExistsError
  | osError
deriving DecidableEq

/-- The file-system state the cache operates on: regular files with their
text contents, and the set of directories. -/
structure FS where
  files : List (String × String)
  dirs : List String
deriving DecidableEq

/-- pathlib path normalization, restricted to what the cache paths need:
dropping trailing slashes (Path with a trailing slash denotes the same
path as without it). -/
def normP (s : String) : String :=
  ofChars ((s.data.reverse.dropWhile (fun c => c = '/')).reverse)

/-- Path.exists: true when the normalized path is a file or a directory. -/
def FS.existsP (fs : FS) (p : String) : Bool :=
  fs.files.any (fun kv => kv.1 = normP p) || fs.dirs.contains (normP p)

/-- The proper prefixes of a path cut at each slash (the ancestor
directories created by mkdir(parents=True)). -/
def slashPrefixes (l : List Char) : List String :=
  (List.range l.length).filterMap
    (fun i => if l[i]? = some '/' then some (ofChars (l.take i)) else none)

/-- Path.mkdir(parents=True, exist_ok=True): records the directory and its
ancestors; raises if the target already exists as a regular file. -/
def FS.mkdirParents (fs : FS) (p : String) : Except PyErr FS :=
  let q := normP p
  if fs.files.any (fun kv => kv.1 = q) then .error .fileExistsError
  else .ok { fs with dirs := q :: slashPrefixes q.data ++ fs.dirs }

/-- Path.write_text: overwrite or create the file; raises when the path
denotes an existing directory. -/
def FS.writeFile (fs : FS) (p content : String) : Except PyErr FS :=
  let q := normP p
  if fs.dirs.contains q then .error .isADirectoryError
  else if fs.files.any (fun kv => kv.1 = q) then
    .ok { fs with files := fs.files.map (fun kv => if kv.1 = q then (q, content) else kv) }
  else .ok { fs with files := fs.files ++ [(q, content)] }

/-- Path.read_text: contents of the file; raises when the path is a
directory or absent. -/
def FS.readFile (fs : FS) (p : String) : Except PyErr String :=
  let q := normP p
  if fs.dirs.contains q then .error .isADirectoryError
  else
    match fs.files.find? (fun kv => kv.1 = q) with
    | some kv => .ok kv.2
    | none => .error .fileNotFoundError

/-- The file system right after Cache.__init__ created the cache root. -/
def initFS : FS := ⟨[], [("./cache")]⟩

/-! ## Cache (proxy.py lines 35-107) -/

def Cache.root_path : String := "./cache"

def Cache.default_file : String := "root"

/-- Cache.get_path: the f-string Path(f'{root_path}/{host}{path}') of the
source.  (Despite its docstring, the source performs no replacement of
slash characters.) -/
def Cache.get_path (host path : String) : String :=
  Cache.root_path ++ "/" ++ host ++ path

/-- Cache.contains: existence check of the computed path. -/
def Cache.contains (fs : FS) (host path : String) : Bool :=
  FS.existsP fs (Cache.get_path host path)

/-- Cache.cache_file: derive the directory part with rindex (ValueError
when the path has no slash), create it, append the default file name when
the directory part is the whole path or empty, and write the payload. -/
def Cache.cache_file (fs : FS) (host path payload : String) : Except PyErr FS := do
  match rindexChar '/' path.data with
  | none => .error .valueError
  | some i =>
    let dir_path := ofChars (path.data.take i)
    let fs1 ← FS.mkdirParents fs (Cache.get_path host dir_path)
    let path1 := if dir_path = path || dir_path.length = 0 then path ++ Cache.default_file else path
    FS.writeFile fs1 (Cache.get_path host path1) payload

/-- Cache.read_cache: same path derivation as cache_file, then read. -/
def Cache.read_cache (fs : FS) (host path : String) : Except PyErr String := do
  match rindexChar '/' path.data with
  | none => .error .valueError
  | some i =>
    let dir_path := ofChars (path.data.take i)
    let path1 := if dir_path = path || dir_path.length = 0 then path ++ Cache.default_file else path
    FS.readFile fs (Cache.get_path host path1)

/-! ## HTTPprotocol (lines 110-126) -/

def HTTPprotocol.delimiter : String := "\r\n"

def HTTPprotocol.header_delimiter : String := "\r\n\r\n"

/-- The float constant 1.1 of the source. -/
def HTTPprotocol.supported_version : PyFloat := ⟨11, 10⟩

/-- HTTPprotocol.is_supported_version: numeric comparison against the
supported version constant. -/
def HTTPprotocol.is_supported_version (request_version : PyFloat) : Bool :=
  pfLe request_version HTTPprotocol.supported_version

/-! ## HTTPrequest (lines 129-206) -/

/-- The fields of an HTTPrequest object once populated. -/
structure HTTPrequest where
  method : String
  uri : String
  version : PyFloat
  headers : List (String × String)
  body : String
deriving DecidableEq

/-- HTTPrequest.__repr__: request line, header lines, blank line, body. -/
def HTTPrequest.repr (r : HTTPrequest) : String :=
  let line := r.method ++ " " ++ r.uri ++ " HTTP/" ++ versionToString r.version ++ HTTPprotocol.delimiter
  let withHeaders := r.headers.foldl
    (fun acc kv => acc ++ kv.1 ++ ": " ++ kv.2 ++ HTTPprotocol.delimiter) line
  withHeaders ++ HTTPprotocol.delimiter ++ r.body

/-- HTTPrequest.populate: set method, uri and version, clearing headers
and body. -/
def HTTPrequest.populate (method uri : String) (version : PyFloat) : HTTPrequest :=
  ⟨method, uri, version, [], ""⟩

/-- HTTPrequest.build_from_raw: split on CRLF, split the first line on
single spaces into exactly three tokens, take the text after the literal
HTTP/ marker of the third, convert it with float(), and populate.  Any
failure models the corresponding raised exception. -/
def HTTPrequest.build_from_raw (raw_request : String) : Except PyErr HTTPrequest :=
  let tokens := pySplit HTTPprotocol.delimiter raw_request
  match pySplit (" ") (tokens.headD ("")) with
  | [method, url, raw_version] =>
    match (pySplit ("HTTP/") raw_version).drop 1 with
    | [] => .error .indexError
    | v :: _ =>
      match parsePyFloat v with
      | none => .error .valueError
      | some version => .ok (HTTPrequest.populate method url version)
  | _ => .error .valueError

/-- HTTPrequest.add_headers with the key-value pairs the source passes. -/
def HTTPrequest.add_headers (r : HTTPrequest) (kvp : List (String × String)) : HTTPrequest :=
  { r with headers := dictUpdate r.headers kvp }

/-- HTTPrequest.append_headers: dict.update with another header map. -/
def HTTPrequest.append_headers (r : HTTPrequest) (headers_dict : List (String × String)) : HTTPrequest :=
  { r with headers := dictUpdate r.headers headers_dict }

/-- HTTPrequest.set_body. -/
def HTTPrequest.set_body (r : HTTPrequest) (body : String) : HTTPrequest :=
  { r with body := body }

/-! ## HTTPresponse (lines 209-261) -/

/-- The status_msgs dictionary of the source. -/
def HTTPresponse.status_msgs : List (Int × String) :=
  [(200, ("OK")), (404, ("Not Found")), (500, ("Internal Error"))]

/-- The fields of an HTTPresponse object. -/
structure HTTPresponse where
  status_code : Int
  status_msg : String
  version : PyFloat
  headers : List (String × String)
  body : String
deriving DecidableEq

/-- HTTPresponse.get_default_headers. -/
def HTTPresponse.get_default_headers : List (String × String) :=
  [(("Connection"), ("close")), (("Cache-Hit"), ("0"))]

/-- HTTPresponse.__init__: look the reason up in status_msgs (a KeyError
for an unsupported code), set the proxy version and, unless asked not to,
the two default headers. -/
def HTTPresponse.make (status_code : Int) (default_headers : Bool) : Except PyErr HTTPresponse :=
  match (HTTPresponse.status_msgs.find? (fun kv => kv.1 = status_code)) with
  | none => .error .keyError
  | some kv =>
    .ok ⟨status_code, kv.2, HTTPprotocol.supported_version,
         if default_headers then HTTPresponse.get_default_headers else [], ""⟩

/-- Decimal rendering of a Python int. -/
def intToStr (n : Int) : String :=
  if n < 0 then "-" ++ natToStr n.natAbs else natToStr n.natAbs

/-- HTTPresponse.__repr__: status line, header lines, blank line, body. -/
def HTTPresponse.repr (r : HTTPresponse) : String :=
  let line := "HTTP/" ++ versionToString r.version ++ " " ++ intToStr r.status_code
    ++ " " ++ r.status_msg ++ HTTPprotocol.delimiter
  let withHeaders := r.headers.foldl
    (fun acc kv => acc ++ kv.1 ++ ": " ++ kv.2 ++ HTTPprotocol.delimiter) line
  withHeaders ++ HTTPprotocol.delimiter ++ r.body

/-- HTTPresponse.add_headers. -/
def HTTPresponse.add_headers (r : HTTPresponse) (kvp : List (String × String)) : HTTPresponse :=
  { r with headers := dictUpdate r.headers kvp }

/-- HTTPresponse.set_body. -/
def HTTPresponse.set_body (r : HTTPresponse) (body : String) : HTTPresponse :=
  { r with body := body }

/-! ## ProxyServer (lines 264-495) -/

/-- The fixed receive buffer size of the source. -/
def BUF_SZ : Nat := 4096

/-- The status-code constants of the source. -/
def SUCCESS : Int := 200
def NOT_FOUND : Int := 404
def SERVER_ERROR : Int := 500

/-- The outside world one connection sees: the chunks successive recv
calls on the client socket yield, whether the outbound connect to the
origin succeeds, the chunks the origin socket then yields, and whether
the final send to the client succeeds.  An exhausted chunk list models
the peer having closed the connection. -/
structure Env where
  clientChunks : List String
  connectOk : Bool
  originChunks : List String
  sendOk : Bool
deriving DecidableEq

/-- The first loop of ProxyServer.receive: accumulate chunks until one is
shorter than the buffer size or contains the header terminator; returns
the accumulated bytes and the chunks still unread. -/
def ProxyServer.headerLoop : List String → String → String × List String
  | [], acc => (acc, [])
  | c :: rest, acc =>
    let acc2 := acc ++ c
    if c.length < BUF_SZ || pyContains HTTPprotocol.header_delimiter c then (acc2, rest)
    else ProxyServer.headerLoop rest acc2

/-- The Content-Length scan of ProxyServer.receive: first header line
whose lowercase form contains the field name; its value after the first
colon is converted with int() (an error when that fails); 0 when no line
matches. -/
def ProxyServer.contentLengthOf (headers : String) : Except PyErr Int :=
  match (pySplit HTTPprotocol.delimiter headers).find?
      (fun line => pyContains ("content-length:") (pyLower line)) with
  | none => .ok 0
  | some line =>
    match (pySplit (":") line).drop 1 with
    | [] => .error .indexError
    | t :: _ =>
      match parsePyInt (pyStrip t) with
      | none => .error .valueError
      | some n => .ok n

/-- The second loop of ProxyServer.receive: keep appending chunks while
the received count is below the declared size, stopping as soon as a recv
yields no bytes (peer closed: accepted end of body, not an error). -/
def ProxyServer.bodyLoop (size : Int) : List String → Nat → String → String
  | [], _, payload => payload
  | c :: rest, received, payload =>
    if (received : Int) < size then
      if c.length = 0 then payload
      else ProxyServer.bodyLoop size rest (received + c.length) (payload ++ c)
    else payload

/-- ProxyServer.receive: header accumulation, split at the first header
terminator into header block and initial payload, Content-Length scan,
then body accumulation on the remaining chunks. -/
def ProxyServer.receive (chunks : List String) : Except PyErr (String × String) :=
  let hl := ProxyServer.headerLoop chunks ("")
  let tokens := pySplit HTTPprotocol.header_delimiter hl.1
  let headers := tokens.headD ("")
  let payload := if tokens.length > 1 then (tokens.drop 1).headD ("") else ("")
  match ProxyServer.contentLengthOf headers with
  | .error e => .error e
  | .ok size => .ok (headers, ProxyServer.bodyLoop size hl.2 payload.length payload)

/-- urllib.parse.urlparse restricted to the shapes the proxy receives
(absolute URLs with a scheme marker, and bare strings without one):
hostname is the lowercased authority before any colon, or None when there
is no scheme or an empty authority; path is everything from the first
slash after the authority, empty when there is none; without a scheme
marker the whole string is the path. -/
def urlparseHostPath (uri : String) : Option String × String :=
  match pySplit ("://") uri with
  | [_] => (none, uri)
  | _ :: after :: _ =>
    (match findSub ['/'] after.data with
     | none =>
       (if after.data.isEmpty then none
        else some (pyLower (ofChars ((splitOnL [':'] after.data).headD []))), (""))
     | some i =>
       (if (after.data.take i).isEmpty then none
        else some (pyLower (ofChars ((splitOnL [':'] (after.data.take i)).headD []))),
        ofChars (after.data.drop i)))
  | [] => (none, uri)

/-- How Python's f-strings and header formatting render the hostname the
proxy passes around: None prints as the four characters None. -/
def fstr : Option String → String
  | none => ("None")
  | some h => h

/-- The path normalization in ProxyServer.handle_get_request: an empty
parsed path becomes the root path. -/
def ProxyServer.normalized_path (p : String) : String :=
  if p.length > 0 then p else ("/")

/-- Lines 400-403 of handle_cache_miss: populate the outbound request
with the client's method and the parsed path (at the proxy's own version),
set Host and Connection, then append the client's header map (dict.update,
so the client's bindings overwrite on key conflicts). -/
def ProxyServer.buildServerRequest (method host path : String)
    (client_headers : List (String × String)) : HTTPrequest :=
  let r := HTTPrequest.populate method path HTTPprotocol.supported_version
  let r := r.add_headers [(("Host"), host), (("Connection"), ("close"))]
  r.append_headers client_headers

/-- ProxyServer.contact_server: open a socket to the origin (an error when
the environment refuses the connection), send the serialized request and
receive the origin's reply; the reply is whatever receive returns on the
origin's chunk stream. -/
def ProxyServer.contact_server (env : Env) (host : String)
    (http_request : HTTPrequest) : Except PyErr (String × String) :=
  if env.connectOk then ProxyServer.receive env.originChunks
  else .error .osError

/-- Lines 406-408 of handle_cache_miss: the integer status code parsed
from the second space-token of the first header line. -/
def ProxyServer.originStatusOf (headers : String) : Except PyErr Int :=
  let tokens := pySplit HTTPprotocol.delimiter headers
  match (pySplit (" ") (tokens.headD (""))).drop 1 with
  | [] => .error .indexError
  | t :: _ =>
    match parsePyInt t with
    | none => .error .valueError
    | some n => .ok n

/-- ProxyServer.handle_cache_hit: build a bare 200 response, read the
cached payload (an uncaught exception when the read fails), set it as the
body and add the Content-length, Connection and Cache-Hit headers.
Returns the serialized response, the file system and whether the origin
was contacted. -/
def ProxyServer.handle_cache_hit (fs : FS) (host path : String) :
    Except PyErr (String × FS × Bool) := do
  let resp ← HTTPresponse.make 200 false
  let payload ← Cache.read_cache fs host path
  let resp := (resp.set_body payload).add_headers
    [(("Content-length"), natToStr payload.length),
     (("Connection"), ("close")), (("Cache-Hit"), ("1"))]
  .ok (resp.repr, fs, false)

/-- ProxyServer.handle_cache_miss: build and send the outbound request;
failures in contacting the origin or parsing its status line are caught
and become a 500 response.  Then: on 200 cache the payload (any cache
write failure is an uncaught exception) and return the origin's header
block with Cache-Hit: 0 appended, on another recognized status return
that same passthrough string, otherwise a 500 response carrying the
origin's payload. -/
def ProxyServer.handle_cache_miss (fs : FS) (env : Env) (host path : String)
    (http_request : HTTPrequest) : Except PyErr (String × FS × Bool) := do
  let server_request := ProxyServer.buildServerRequest http_request.method host path http_request.headers
  match (do
      let hp ← ProxyServer.contact_server env host server_request
      let status ← ProxyServer.originStatusOf hp.1
      pure (hp.1, hp.2, status) : Except PyErr (String × String × Int)) with
  | .error _ => do
    let resp ← HTTPresponse.make SERVER_ERROR true
    .ok (resp.repr, fs, true)
  | .ok (headers, payload, status_code) =>
    let http_response := headers ++ "\r\nCache-Hit: 0" ++ HTTPprotocol.header_delimiter ++ payload
    if status_code = SUCCESS then do
      let fs1 ← Cache.cache_file fs host path payload
      .ok (http_response, fs1, true)
    else if HTTPresponse.status_msgs.any (fun kv => kv.1 = status_code) then
      .ok (http_response, fs, true)
    else do
      let resp ← HTTPresponse.make SERVER_ERROR true
      .ok ((resp.set_body payload).repr, fs, true)

/-- ProxyServer.handle_get_request: parse the URI into host and path,
normalize an empty path to the root, and dispatch on the cache check. -/
def ProxyServer.handle_get_request (fs : FS) (env : Env)
    (http_request : HTTPrequest) : Except PyErr (String × FS × Bool) :=
  let parsed := urlparseHostPath http_request.uri
  let host := fstr parsed.1
  let path := ProxyServer.normalized_path parsed.2
  if Cache.contains fs host path then ProxyServer.handle_cache_hit fs host path
  else ProxyServer.handle_cache_miss fs env host path http_request

/-- ProxyServer.handle_http_request: parse the raw header block (parse
failures are caught and become a 500 response), then gate on the version,
then dispatch on the method with only GET supported.  Failures inside the
GET handling itself are not caught here. -/
def ProxyServer.handle_http_request (fs : FS) (env : Env)
    (headers payload : String) : Except PyErr (String × FS × Bool) :=
  match HTTPrequest.build_from_raw headers with
  | .error _ =>
    (do
      let resp ← HTTPresponse.make SERVER_ERROR true
      .ok (resp.repr, fs, false))
  | .ok req0 =>
    let http_request := req0.set_body payload
    if !(HTTPprotocol.is_supported_version http_request.version) then
      (do
        let resp ← HTTPresponse.make SERVER_ERROR true
        .ok (resp.repr, fs, false))
    else if http_request.method = ("GET") then
      ProxyServer.handle_get_request fs env http_request
    else
      (do
        let resp ← HTTPresponse.make SERVER_ERROR true
        .ok (resp.repr, fs, false))

/-- What one connection produced when the handler ran to completion: the
serialized response sent to the client, the resulting file system, and
whether an outbound origin connection was opened.  A completed handler
always closes the client socket; an Except error instead models an
exception escaping handle_connection, which skips both the send and the
close. -/
structure ConnResult where
  response : String
  fs : FS
  contacted : Bool
deriving DecidableEq

/-- ProxyServer.handle_connection: receive from the client (failures here
are caught and become a 500 response), otherwise handle the request (with
any exception from the handling propagating), then send the chosen
response and close the socket. -/
def ProxyServer.handle_connection (fs : FS) (env : Env) : Except PyErr ConnResult := do
  let step ←
    match ProxyServer.receive env.clientChunks with
    | .error _ =>
      (do
        let resp ← HTTPresponse.make SERVER_ERROR true
        .ok (resp.repr, fs, false) : Except PyErr (String × FS × Bool))
    | .ok hp => ProxyServer.handle_http_request fs env hp.1 hp.2
  if env.sendOk then
    .ok ⟨step.1, step.2.1, step.2.2⟩
  else .error .osError

/-- The accept loop of ProxyServer.start_proxy catches only
KeyboardInterrupt: the serving process survives a connection exactly when
no other exception escapes its handler. -/
def ProxyServer.process_survives (fs : FS) (env : Env) : Bool :=
  (ProxyServer.handle_connection fs env).isOk

/-- The round trip of the spec: serialize a request, split the wire text
at the first header terminator exactly as receive does, rebuild the
request from the header block and set the payload part as its body. -/
def roundTripRequest (r : HTTPrequest) : Except PyErr HTTPrequest :=
  let wire := r.repr
  let tokens := pySplit HTTPprotocol.header_delimiter wire
  let hdr := tokens.headD ("")
  let payload := if tokens.length > 1 then (tokens.drop 1).headD ("") else ("")
  (HTTPrequest.build_from_raw hdr).map (fun q => q.set_body payload)

/-! ## Values used by the theorem statements -/

/-- The 500 response object HTTPresponse(SERVER_ERROR) builds. -/
def serverError500 : HTTPresponse :=
  ⟨500, ("Internal Error"), HTTPprotocol.supported_version,
   HTTPresponse.get_default_headers, ("")⟩

/-- Total byte count of a chunk list. -/
def totalLen (l : List String) : Nat := (l.map String.length).sum

/-- Concatenation of a chunk list. -/
def strJoin : List String → String
  | [] => ("")
  | c :: r => c ++ strJoin r

/-- Scenario 1 and 2 of the spec: a client GET for
http://example.test/a.html, an origin answering 200 with body hello. -/
def envScenario : Env :=
  ⟨[("GET http://example.test/a.html HTTP/1.1\r\n\r\n")], true,
   [("HTTP/1.1 200 OK\r\nContent-Length: 5\r\n\r\nhello")], true⟩

/-- A client GET for a path ending in a slash, with the origin answering
200: the cache write then addresses a just-created directory. -/
def envDirPath : Env :=
  ⟨[("GET http://h/a/ HTTP/1.1\r\n\r\n")], true,
   [("HTTP/1.1 200 OK\r\nContent-Length: 5\r\n\r\nhello")], true⟩

/-- A client message whose Content-Length value is not an integer. -/
def envBadLength : Env :=
  ⟨[("GET http://h/x HTTP/1.1\r\nContent-Length: abc\r\n\r\n")], true, [], true⟩

/-- A request line with the lowercase-p marker HTTp/1.0, against a
cooperative origin. -/
def envHTTpLower : Env :=
  ⟨[("GET http://h/a.html HTTp/1.0\r\n\r\n")], true,
   [("HTTP/1.1 200 OK\r\nContent-Length: 5\r\n\r\nhello")], true⟩

/-- A client GET whose origin answers 404 Not Found. -/
def env404 : Env :=
  ⟨[("GET http://h/x.html HTTP/1.1\r\n\r\n")], true,
   [("HTTP/1.1 404 Not Found\r\nContent-Length: 2\r\n\r\nno")], true⟩

/-- A client GET whose origin answers the unrecognized 503. -/
def env503 : Env :=
  ⟨[("GET http://h/x.html HTTP/1.1\r\n\r\n")], true,
   [("HTTP/1.1 503 Service Unavailable\r\nContent-Length: 4\r\n\r\nbusy")], true⟩

/-- A well-formed request carrying one header, for the round trip. -/
def reqWithHeader : HTTPrequest :=
  ⟨("GET"), ("http://h/a"), ⟨11, 10⟩, [(("Accept"), ("text/html"))], ("hello")⟩

/-- The header block of a serialized message as __repr__ lays it out
between the first line and the blank line: each header line carried
behind the CRLF that precedes it. -/
def hdrBlockL : List (String × String) → List Char
  | [] => []
  | kv :: t => '\r' :: '\n' :: (chars kv.1 ++ ':' :: ' ' :: chars kv.2 ++ hdrBlockL t)

/-- The flat run of header lines each followed by CRLF, as the fold in
__repr__ appends them. -/
def flatLines : List (String × String) → List Char
  | [] => []
  | kv :: t => chars kv.1 ++ ':' :: ' ' :: chars kv.2 ++ '\r' :: '\n' :: flatLines t

/-- The wire form of the request line, as a character list. -/
def firstLineL (r : HTTPrequest) : List Char :=
  chars r.method ++ ' ' :: chars r.uri ++ ' ' :: chars ("HTTP/") ++ chars (versionToString r.version)

/-- Every carriage return in the list is immediately followed by a line
feed and then by some character other than a carriage return; such a
list can neither contain a header terminator nor end in a way that
completes one with following text. -/
def NoTermBreak (l : List Char) : Prop :=
  ∀ i, l[i]? = some '\r' →
    l[i + 1]? = some '\n' ∧ ∃ ch, l[i + 2]? = some ch ∧ ch ≠ '\r'

/-! ## Lemmas about the string helpers -/

theorem strAppend_data (a b : String) : (a ++ b).data = a.data ++ b.data :=
  String.data_append a b

theorem ofChars_data (s : String) : ofChars s.data = s := rfl

theorem data_ofChars (l : List Char) : (ofChars l).data = l := rfl

theorem strAppend_empty (s : String) : s ++ ("") = s := by
  cases s with
  | mk d => show String.mk (d ++ []) = String.mk d
            rw [List.append_nil]

theorem strAppend_assoc (a b c : String) : a ++ b ++ c = a ++ (b ++ c) := by
  cases a with
  | mk x => cases b with
    | mk y => cases c with
      | mk z => show String.mk (x ++ y ++ z) = String.mk (x ++ (y ++ z))
                rw [List.append_assoc]

theorem strLength_data (s : String) : s.length = s.data.length := rfl

theorem strLength_zero (s : String) (h : s.length = 0) : s = ("") := by
  cases s with
  | mk d => cases d with
    | nil => rfl
    | cons c t => simp [strLength_data] at h

theorem findSub_nil (sep : List Char) (h : sep ≠ []) : findSub sep [] = none := by
  have : sep.isEmpty = false := by
    cases sep with
    | nil => exact absurd rfl h
    | cons c t => rfl
  simp [findSub, this]

theorem isPrefixL_self_append (sep b : List Char) : isPrefixL sep (sep ++ b) = true := by
  induction sep with
  | nil => rfl
  | cons c t ih => simp [isPrefixL, ih]

theorem findSub_head_notMem {c : Char} (sep' l : List Char) (hc : c ∉ l) :
    findSub (c :: sep') l = none := by
  induction l with
  | nil => rfl
  | cons x xs ih =>
    have hx : ¬ (c = x) := fun h => hc (h ▸ List.mem_cons_self x xs)
    have hpre : isPrefixL (c :: sep') (x :: xs) = false := by
      simp [isPrefixL, hx]
    have hxs : findSub (c :: sep') xs = none :=
      ih (fun hm => hc (List.mem_cons_of_mem _ hm))
    simp [findSub, hpre, hxs]

theorem findSub_cons_append (sep b : List Char) (h : sep ≠ []) :
    findSub sep (sep ++ b) = some 0 := by
  cases sep with
  | nil => exact absurd rfl h
  | cons c t =>
    have h2 : isPrefixL (c :: t) ((c :: t) ++ b) = true := isPrefixL_self_append (c :: t) b
    simp only [List.cons_append] at h2
    simp [findSub, h2]

theorem findSub_append_of_no_start (sep a l : List Char)
    (h : ∀ i, i < a.length → isPrefixL sep ((a ++ l).drop i) = false) :
    findSub sep (a ++ l) = (findSub sep l).map (· + a.length) := by
  induction a with
  | nil =>
    simp only [List.nil_append, List.length_nil]
    cases findSub sep l <;> simp
  | cons x xs ih =>
    have h0 : isPrefixL sep (x :: (xs ++ l)) = false := by
      have := h 0 (by simp)
      simpa using this
    have hrest : ∀ i, i < xs.length → isPrefixL sep ((xs ++ l).drop i) = false := by
      intro i hi
      have := h (i + 1) (by simp; omega)
      simpa using this
    calc findSub sep ((x :: xs) ++ l)
        = findSub sep (x :: (xs ++ l)) := rfl
      _ = (findSub sep (xs ++ l)).map (· + 1) := by simp [findSub, h0]
      _ = ((findSub sep l).map (· + xs.length)).map (· + 1) := by rw [ih hrest]
      _ = (findSub sep l).map (· + (x :: xs).length) := by
            cases findSub sep l <;> simp <;> omega

theorem findSub_some_ne_nil (sep l : List Char) (i : Nat) (hsep : sep ≠ [])
    (h : findSub sep l = some i) : l ≠ [] := by
  intro hl
  rw [hl, findSub_nil sep hsep] at h
  exact Option.noConfusion h

theorem splitOnLAux_fuel (sep : List Char) (hsep : sep ≠ []) :
    ∀ f1 f2 l, l.length ≤ f1 → l.length ≤ f2 →
      splitOnLAux sep f1 l = splitOnLAux sep f2 l := by
  intro f1
  induction f1 with
  | zero =>
    intro f2 l h1 _
    have hl : l = [] := List.eq_nil_of_length_eq_zero (Nat.le_zero.mp h1)
    subst hl
    cases f2 with
    | zero => rfl
    | succ f2 => simp [splitOnLAux, findSub_nil sep hsep]
  | succ f1 ih =>
    intro f2 l h1 h2
    cases f2 with
    | zero =>
      have hl : l = [] := List.eq_nil_of_length_eq_zero (Nat.le_zero.mp h2)
      subst hl
      simp [splitOnLAux, findSub_nil sep hsep]
    | succ f2 =>
      simp only [splitOnLAux]
      cases hf : findSub sep l with
      | none => rfl
      | some i =>
        have hne : l ≠ [] := findSub_some_ne_nil sep l i hsep hf
        have hlp : 1 ≤ l.length := by
          cases l with
          | nil => exact absurd rfl hne
          | cons => simp
        have hsp : 1 ≤ sep.length := by
          cases sep with
          | nil => exact absurd rfl hsep
          | cons => simp
        have hd1 : (l.drop (i + sep.length)).length ≤ f1 := by
          rw [List.length_drop]; omega
        have hd2 : (l.drop (i + sep.length)).length ≤ f2 := by
          rw [List.length_drop]; omega
        show l.take i :: splitOnLAux sep f1 (l.drop (i + sep.length)) =
             l.take i :: splitOnLAux sep f2 (l.drop (i + sep.length))
        rw [ih f2 _ hd1 hd2]

theorem splitOnL_no_occur (sep l : List Char) (h : findSub sep l = none) :
    splitOnL sep l = [l] := by
  cases l with
  | nil => rfl
  | cons x xs =>
    show splitOnLAux sep (x :: xs).length (x :: xs) = _
    simp only [List.length_cons, splitOnLAux, h]

theorem splitOnL_boundary_cond (sep a b : List Char) (hsep : sep ≠ [])
    (h : ∀ i, i < a.length → isPrefixL sep ((a ++ (sep ++ b)).drop i) = false) :
    splitOnL sep (a ++ sep ++ b) = a :: splitOnL sep b := by
  have hsp : 1 ≤ sep.length := by
    cases sep with
    | nil => exact absurd rfl hsep
    | cons => simp
  have hfind : findSub sep (a ++ (sep ++ b)) = some a.length := by
    rw [findSub_append_of_no_start sep a (sep ++ b) h,
        findSub_cons_append sep b hsep]
    simp
  have hassoc : a ++ sep ++ b = a ++ (sep ++ b) := List.append_assoc a sep b
  rw [hassoc]
  have hlen : (a ++ (sep ++ b)).length = a.length + (sep.length + b.length) := by simp
  have hpos : 1 ≤ (a ++ (sep ++ b)).length := by omega
  obtain ⟨n, hn⟩ : ∃ n, (a ++ (sep ++ b)).length = n + 1 :=
    ⟨(a ++ (sep ++ b)).length - 1, by omega⟩
  have hbn : b.length ≤ n := by omega
  show splitOnLAux sep (a ++ (sep ++ b)).length (a ++ (sep ++ b)) = a :: splitOnL sep b
  rw [hn]
  simp only [splitOnLAux, hfind]
  have htake : (a ++ (sep ++ b)).take a.length = a := List.take_left a (sep ++ b)
  have hdrop : (a ++ (sep ++ b)).drop (a.length + sep.length) = b := by
    rw [← List.append_assoc]
    have h2 : a.length + sep.length = (a ++ sep).length := by simp
    rw [h2, List.drop_left]
  rw [htake, hdrop, splitOnLAux_fuel sep hsep n b.length b hbn (Nat.le_refl _)]
  rfl

theorem drop_get_head {l : List Char} {i : Nat} {x : Char} {xs : List Char}
    (hd : l.drop i = x :: xs) : l[i]? = some x := by
  have h1 : (l.drop i)[0]? = some x := by rw [hd]; simp
  rw [List.getElem?_drop] at h1
  simpa using h1

theorem no_start_of_head_notMem {c : Char} (sep' a l : List Char) (hc : c ∉ a) :
    ∀ i, i < a.length → isPrefixL (c :: sep') ((a ++ l).drop i) = false := by
  intro i hi
  cases hd : (a ++ l).drop i with
  | nil => rfl
  | cons x xs =>
    have hx : (a ++ l)[i]? = some x := drop_get_head hd
    rw [List.getElem?_append_left hi] at hx
    have hxa : x ∈ a := List.getElem?_mem hx
    have hcx : ¬ (c = x) := fun h => hc (h ▸ hxa)
    simp [isPrefixL, hcx]

theorem splitOnL_boundary_head {c : Char} (sep' a b : List Char) (hc : c ∉ a) :
    splitOnL (c :: sep') (a ++ (c :: sep') ++ b) = a :: splitOnL (c :: sep') b := by
  apply splitOnL_boundary_cond _ a b (by simp)
  exact no_start_of_head_notMem sep' a ((c :: sep') ++ b) hc

theorem build_from_raw_shape (m u vs tail : List Char) (v : PyFloat)
    (hm1 : ' ' ∉ m) (hm2 : '\r' ∉ m)
    (hu1 : ' ' ∉ u) (hu2 : '\r' ∉ u)
    (hv1 : ' ' ∉ vs) (hv2 : '\r' ∉ vs) (hv3 : 'H' ∉ vs)
    (hparse : parsePyFloat (ofChars vs) = some v)
    (htail : tail = [] ∨ ∃ t2, tail = '\r' :: '\n' :: t2) :
    HTTPrequest.build_from_raw
        (ofChars ((m ++ ' ' :: u ++ ' ' :: chars ("HTTP/") ++ vs) ++ tail)) =
      .ok ⟨ofChars m, ofChars u, v, [], ("")⟩ := by
  have hCRfl : '\r' ∉ m ++ ' ' :: u ++ ' ' :: chars ("HTTP/") ++ vs := by
    intro hmem
    simp only [List.mem_append, List.mem_cons, or_assoc] at hmem
    rcases hmem with h | h | h | h | h | h <;>
      first
        | exact hm2 h
        | exact hu2 h
        | exact hv2 h
        | exact absurd h (by decide)
  have hheadD : (pySplit HTTPprotocol.delimiter
      (ofChars ((m ++ ' ' :: u ++ ' ' :: chars ("HTTP/") ++ vs) ++ tail))).headD ("") =
      ofChars (m ++ ' ' :: u ++ ' ' :: chars ("HTTP/") ++ vs) := by
    rcases htail with h | ⟨t2, h⟩
    · subst h
      rw [List.append_nil]
      show ((splitOnL ['\r', '\n'] (m ++ ' ' :: u ++ ' ' :: chars ("HTTP/") ++ vs)).map ofChars).headD ("") = _
      rw [splitOnL_no_occur _ _ (findSub_head_notMem _ _ hCRfl)]
      rfl
    · subst h
      have heq : (m ++ ' ' :: u ++ ' ' :: chars ("HTTP/") ++ vs) ++ '\r' :: '\n' :: t2 =
          (m ++ ' ' :: u ++ ' ' :: chars ("HTTP/") ++ vs) ++ ('\r' :: ['\n']) ++ t2 := by
        simp
      rw [heq]
      show ((splitOnL ['\r', '\n']
          ((m ++ ' ' :: u ++ ' ' :: chars ("HTTP/") ++ vs) ++ ('\r' :: ['\n']) ++ t2)).map ofChars).headD ("") = _
      rw [splitOnL_boundary_head ['\n'] _ t2 hCRfl]
      rfl
  have hnospace : ' ' ∉ chars ("HTTP/") ++ vs := by
    intro hmem
    rcases List.mem_append.mp hmem with h | h
    · exact absurd h (by decide)
    · exact hv1 h
  have hspace : pySplit (" ") (ofChars (m ++ ' ' :: u ++ ' ' :: chars ("HTTP/") ++ vs)) =
      [ofChars m, ofChars u, ofChars (chars ("HTTP/") ++ vs)] := by
    show (splitOnL [' '] (m ++ ' ' :: u ++ ' ' :: chars ("HTTP/") ++ vs)).map ofChars = _
    have h1 : m ++ ' ' :: u ++ ' ' :: chars ("HTTP/") ++ vs =
        m ++ (' ' :: []) ++ (u ++ (' ' :: []) ++ (chars ("HTTP/") ++ vs)) := by simp
    rw [h1, splitOnL_boundary_head [] m _ hm1, splitOnL_boundary_head [] u _ hu1,
        splitOnL_no_occur _ _ (findSub_head_notMem [] _ hnospace)]
    rfl
  have hmarker : chars ("HTTP/") = 'H' :: ['T', 'T', 'P', '/'] := by decide
  have hfindH : findSub (chars ("HTTP/")) vs = none := by
    rw [hmarker]
    exact findSub_head_notMem _ vs hv3
  have hhttp : pySplit ("HTTP/") (ofChars (chars ("HTTP/") ++ vs)) = [(""), ofChars vs] := by
    show (splitOnL (chars ("HTTP/")) (chars ("HTTP/") ++ vs)).map ofChars = _
    have h1 : chars ("HTTP/") ++ vs = [] ++ chars ("HTTP/") ++ vs := by simp
    rw [h1, splitOnL_boundary_cond (chars ("HTTP/")) [] vs (by decide)
          (by intro i hi; simp at hi),
        splitOnL_no_occur _ _ hfindH]
    rfl
  show (match pySplit (" ") ((pySplit HTTPprotocol.delimiter
      (ofChars ((m ++ ' ' :: u ++ ' ' :: chars ("HTTP/") ++ vs) ++ tail))).headD ("")) with
    | [method, url, raw_version] =>
      match (pySplit ("HTTP/") raw_version).drop 1 with
      | [] => Except.error PyErr.indexError
      | v :: _ =>
        match parsePyFloat v with
        | none => Except.error PyErr.valueError
        | some version => Except.ok (HTTPrequest.populate method url version)
    | _ => Except.error PyErr.valueError) = Except.ok ⟨ofChars m, ofChars u, v, [], ("")⟩
  rw [hheadD, hspace]
  show (match (pySplit ("HTTP/") (ofChars (chars ("HTTP/") ++ vs))).drop 1 with
    | [] => Except.error PyErr.indexError
    | v :: _ =>
      match parsePyFloat v with
      | none => Except.error PyErr.valueError
      | some version => Except.ok (HTTPrequest.populate (ofChars m) (ofChars u) version)) =
      Except.ok ⟨ofChars m, ofChars u, v, [], ("")⟩
  rw [hhttp]
  show (match parsePyFloat (ofChars vs) with
    | none => Except.error PyErr.valueError
    | some version => Except.ok (HTTPrequest.populate (ofChars m) (ofChars u) version)) =
      Except.ok ⟨ofChars m, ofChars u, v, [], ("")⟩
  rw [hparse]
  rfl

theorem resp500_make : HTTPresponse.make SERVER_ERROR true = .ok serverError500 := by decide

theorem build_headers_nil (raw : String) (r : HTTPrequest)
    (h : HTTPrequest.build_from_raw raw = .ok r) : r.headers = [] ∧ r.body = ("") := by
  unfold HTTPrequest.build_from_raw at h
  dsimp only at h
  split at h
  · split at h
    · simp at h
    · split at h
      · simp at h
      · rw [← Except.ok.inj h]
        exact ⟨rfl, rfl⟩
  · simp at h

/-! ## Claim C3 -/

/-- C3 counterexample: the claim says a first line written HTTp/1.0 is
accepted and proceeds to method dispatch; in fact the case-sensitive
split on the HTTP/ marker fails, the parse error is caught, and the proxy
answers 500 without dispatching (no origin contact even though the
environment would allow one). -/
theorem C3_counterexample_HTTp_is_rejected :
    HTTPrequest.build_from_raw (("GET http://h/a.html HTTp/1.0")) = .error .indexError ∧
    (ProxyServer.handle_connection initFS envHTTpLower).toOption.map
        (fun r => (r.contacted, r.response)) =
      some (false, serverError500.repr) := by
  exact ⟨by decide, by decide⟩

/-- C3 (amended): for a parseable request line, the version gate alone
decides: a numeric version above 1.1 yields the 500 response without
dispatch, and a version at or below 1.1 proceeds to method dispatch
(GET to the cache logic, anything else to the 500 response).  A line
whose marker is not the exact uppercase HTTP/ never reaches this gate. -/
theorem C3_version_gate (m u vs tail : List Char) (v : PyFloat) (fs : FS) (env : Env) (p : String)
    (hm1 : ' ' ∉ m) (hm2 : '\r' ∉ m)
    (hu1 : ' ' ∉ u) (hu2 : '\r' ∉ u)
    (hv1 : ' ' ∉ vs) (hv2 : '\r' ∉ vs) (hv3 : 'H' ∉ vs)
    (hparse : parsePyFloat (ofChars vs) = some v)
    (htail : tail = [] ∨ ∃ t2, tail = '\r' :: '\n' :: t2) :
    (HTTPprotocol.is_supported_version v = false →
      ProxyServer.handle_http_request fs env
          (ofChars ((m ++ ' ' :: u ++ ' ' :: chars ("HTTP/") ++ vs) ++ tail)) p =
        .ok (serverError500.repr, fs, false)) ∧
    (HTTPprotocol.is_supported_version v = true →
      ProxyServer.handle_http_request fs env
          (ofChars ((m ++ ' ' :: u ++ ' ' :: chars ("HTTP/") ++ vs) ++ tail)) p =
        (if ofChars m = ("GET") then
          ProxyServer.handle_get_request fs env ⟨ofChars m, ofChars u, v, [], p⟩
        else .ok (serverError500.repr, fs, false))) := by
  have hb := build_from_raw_shape m u vs tail v hm1 hm2 hu1 hu2 hv1 hv2 hv3 hparse htail
  constructor
  · intro hunsup
    unfold ProxyServer.handle_http_request
    rw [hb]
    simp only [HTTPrequest.set_body, hunsup]
    rfl
  · intro hsup
    unfold ProxyServer.handle_http_request
    rw [hb]
    by_cases hg : ofChars m = ("GET")
    · simp only [HTTPrequest.set_body, hsup, hg]
      rfl
    · simp only [HTTPrequest.set_body, hsup, hg]
      simp [hg]
      rfl

/-- C3 witness: the gate theorem applied to the concrete line
GET http://h/a.html HTTP/2.0, whose version 2.0 is above the ceiling. -/
theorem C3_version_gate_witness :
    ProxyServer.handle_http_request initFS envHTTpLower
        (("GET http://h/a.html HTTP/2.0")) (("")) =
      .ok (serverError500.repr, initFS, false) := by
  have h := (C3_version_gate (chars ("GET")) (chars ("http://h/a.html")) (chars ("2.0")) []
      ⟨2, 1⟩ initFS envHTTpLower ("")
      (by decide) (by decide) (by decide) (by decide) (by decide) (by decide) (by decide)
      (by decide) (Or.inl rfl)).1 (by decide)
  have e : ofChars ((chars ("GET") ++ ' ' :: chars ("http://h/a.html") ++ ' ' ::
      chars ("HTTP/") ++ chars ("2.0")) ++ ([] : List Char)) =
      ("GET http://h/a.html HTTP/2.0") := by decide
  rw [e] at h
  exact h

/-! ## Claims C4 and C7: the cache-miss status decision -/

theorem except_bind_ok {e a b : Type} (x : a) (f : a → Except e b) :
    (Except.ok x >>= f : Except e b) = f x := rfl

theorem cache_miss_passthrough (fs : FS) (env : Env) (host path : String)
    (req : HTTPrequest) (hdrs payload : String) (code : Int)
    (hc : env.connectOk = true)
    (hr : ProxyServer.receive env.originChunks = .ok (hdrs, payload))
    (hs : ProxyServer.originStatusOf hdrs = .ok code) :
    ProxyServer.handle_cache_miss fs env host path req =
      (if code = SUCCESS then
        (Cache.cache_file fs host path payload).bind (fun fs1 =>
          .ok (hdrs ++ ("\r\nCache-Hit: 0") ++ HTTPprotocol.header_delimiter ++ payload, fs1, true))
      else if HTTPresponse.status_msgs.any (fun kv => kv.1 = code) then
        .ok (hdrs ++ ("\r\nCache-Hit: 0") ++ HTTPprotocol.header_delimiter ++ payload, fs, true)
      else
        .ok ((serverError500.set_body payload).repr, fs, true)) := by
  unfold ProxyServer.handle_cache_miss ProxyServer.contact_server
  rw [hc]
  simp only [if_true, hr, except_bind_ok, hs]
  have hpure : (pure (hdrs, payload, code) : Except PyErr (String × String × Int)) =
      Except.ok (hdrs, payload, code) := rfl
  rw [hpure]
  rfl

/-- C4 counterexample: the origin's 404 is not passed through unmodified;
the proxy inserts a Cache-Hit: 0 header line before the terminator, so
the client sees a response different from the origin's exact bytes
(the cache is still untouched). -/
theorem C4_counterexample_marker_added :
    (ProxyServer.handle_connection initFS env404).toOption.map
        (fun r => (r.response, r.fs)) =
      some ((("HTTP/1.1 404 Not Found\r\nContent-Length: 2\r\nCache-Hit: 0\r\n\r\nno")), initFS) ∧
    (("HTTP/1.1 404 Not Found\r\nContent-Length: 2\r\nCache-Hit: 0\r\n\r\nno")) ≠
      strJoin env404.originChunks := by
  exact ⟨by decide, by decide⟩

/-- C4 (amended): a recognized non-200 origin status (404) is passed
through with the same status line, header lines and body, except that a
Cache-Hit: 0 header line is appended to the header block; nothing is
written to the cache. -/
theorem C4_notfound_passthrough (fs : FS) (env : Env) (host path : String)
    (req : HTTPrequest) (hdrs payload : String)
    (hc : env.connectOk = true)
    (hr : ProxyServer.receive env.originChunks = .ok (hdrs, payload))
    (hs : ProxyServer.originStatusOf hdrs = .ok 404) :
    ProxyServer.handle_cache_miss fs env host path req =
      .ok (hdrs ++ ("\r\nCache-Hit: 0") ++ HTTPprotocol.header_delimiter ++ payload, fs, true) := by
  rw [cache_miss_passthrough fs env host path req hdrs payload 404 hc hr hs]
  have h1 : ¬ ((404 : Int) = SUCCESS) := by decide
  have h2 : HTTPresponse.status_msgs.any (fun kv => kv.1 = (404 : Int)) = true := by decide
  rw [if_neg h1, h2]
  rfl

/-- C4 witness: the amended theorem at the concrete 404 environment. -/
theorem C4_notfound_passthrough_witness :
    ProxyServer.handle_cache_miss initFS env404 (("h")) (("/x.html"))
        (HTTPrequest.populate (("GET")) (("/x.html")) ⟨11, 10⟩) =
      .ok ((("HTTP/1.1 404 Not Found\r\nContent-Length: 2")) ++ ("\r\nCache-Hit: 0") ++
        HTTPprotocol.header_delimiter ++ (("no")), initFS, true) :=
  C4_notfound_passthrough initFS env404 (("h")) (("/x.html"))
    (HTTPrequest.populate (("GET")) (("/x.html")) ⟨11, 10⟩)
    (("HTTP/1.1 404 Not Found\r\nContent-Length: 2")) (("no"))
    (by decide) (by decide) (by decide)

/-- C7: an origin status outside the recognized set 200, 404, 500 makes
the proxy answer its own 500 response whose body is the origin's
payload, and the file system (hence the cache) is returned unchanged. -/
theorem C7_unrecognized_status_becomes_500 (fs : FS) (env : Env) (host path : String)
    (req : HTTPrequest) (hdrs payload : String) (code : Int)
    (hc : env.connectOk = true)
    (hr : ProxyServer.receive env.originChunks = .ok (hdrs, payload))
    (hs : ProxyServer.originStatusOf hdrs = .ok code)
    (h200 : code ≠ 200) (h404 : code ≠ 404) (h500 : code ≠ 500) :
    ProxyServer.handle_cache_miss fs env host path req =
      .ok ((serverError500.set_body payload).repr, fs, true) := by
  rw [cache_miss_passthrough fs env host path req hdrs payload code hc hr hs]
  have hany : HTTPresponse.status_msgs.any (fun kv => kv.1 = code) = false := by
    have e1 : ¬ ((200 : Int) = code) := fun h => h200 h.symm
    have e2 : ¬ ((404 : Int) = code) := fun h => h404 h.symm
    have e3 : ¬ ((500 : Int) = code) := fun h => h500 h.symm
    simp [HTTPresponse.status_msgs, e1, e2, e3]
  have hsucc : ¬ (code = SUCCESS) := by
    intro h
    exact h200 h
  rw [if_neg hsucc, hany]
  rfl

/-- C7 witness: the theorem at the concrete 503 environment. -/
theorem C7_unrecognized_status_witness :
    ProxyServer.handle_cache_miss initFS env503 (("h")) (("/x.html"))
        (HTTPrequest.populate (("GET")) (("/x.html")) ⟨11, 10⟩) =
      .ok ((serverError500.set_body (("busy"))).repr, initFS, true) :=
  C7_unrecognized_status_becomes_500 initFS env503 (("h")) (("/x.html"))
    (HTTPrequest.populate (("GET")) (("/x.html")) ⟨11, 10⟩)
    (("HTTP/1.1 503 Service Unavailable\r\nContent-Length: 4")) (("busy")) 503
    (by decide) (by decide) (by decide) (by decide) (by decide) (by decide)

/-! ## Claim C5: the outbound request -/

/-- C5 counterexample: the header-append order makes a client-supplied
Host overwrite the explicit one, not the other way around: with a client
Host of evil and target host h, the outbound request carries Host evil. -/
theorem C5_counterexample_client_host_wins :
    (ProxyServer.buildServerRequest (("GET")) (("h")) (("/x")) [(("Host"), ("evil"))]).headers =
      [(("Host"), ("evil")), (("Connection"), ("close"))] ∧
    (("evil")) ≠ (("h")) := by
  exact ⟨by decide, by decide⟩

/-- C5 (amended): the outbound request reuses the client's method and the
parsed path at the proxy's version; Host and Connection close are set
first and the client's headers are appended afterwards with dict-update
semantics (so a client Host would win); since the raw-request parser
never populates headers, the client map is always empty in the proxy's
flow and the outbound request then carries exactly Host and
Connection close. -/
theorem C5_outbound_request_shape :
    (∀ (method host path : String) (hs : List (String × String)),
      (ProxyServer.buildServerRequest method host path hs).method = method ∧
      (ProxyServer.buildServerRequest method host path hs).uri = path ∧
      (ProxyServer.buildServerRequest method host path hs).version = HTTPprotocol.supported_version) ∧
    (∀ method host path : String,
      (ProxyServer.buildServerRequest method host path []).headers =
        [(("Host"), host), (("Connection"), ("close"))]) ∧
    (∀ (raw : String) (r : HTTPrequest),
      HTTPrequest.build_from_raw raw = .ok r → r.headers = []) := by
  refine ⟨fun method host path hs => ⟨rfl, rfl, rfl⟩,
    fun method host path => ?_,
    fun raw r h => (build_headers_nil raw r h).1⟩
  rfl

/-- C5 witness: the shape theorem applied to a parse of the Scenario 1
request line, whose header map is indeed empty. -/
theorem C5_outbound_request_shape_witness :
    (ProxyServer.buildServerRequest (("GET")) (("example.test")) (("/a.html")) []).headers =
      [(("Host"), ("example.test")), (("Connection"), ("close"))] ∧
    ({ method := ("GET"), uri := ("http://example.test/a.html"), version := ⟨11, 10⟩,
       headers := [], body := ("") } : HTTPrequest).headers = [] :=
  ⟨C5_outbound_request_shape.2.1 (("GET")) (("example.test")) (("/a.html")),
   C5_outbound_request_shape.2.2 (("GET http://example.test/a.html HTTP/1.1"))
     { method := ("GET"), uri := ("http://example.test/a.html"), version := ⟨11, 10⟩,
       headers := [], body := ("") } (by decide)⟩

/-! ## Claim C8: body accumulation stops at stream closure -/

/-- C8: when the declared Content-Length exceeds what the stream can
deliver, the body loop still returns after consuming every chunk,
treating the closed stream as end of body (never an error, never an
unbounded wait), with the payload extended by exactly the bytes that
arrived; and receive as a whole does the same on a concrete message
shorter than its declared length. -/
theorem C8_bodyLoop_stops_at_closure :
    (∀ (chunks : List String) (size : Int) (received : Nat) (payload : String),
      (∀ c ∈ chunks, c ≠ ("")) →
      (received : Int) + (totalLen chunks : Int) < size →
      ProxyServer.bodyLoop size chunks received payload = payload ++ strJoin chunks) ∧
    ProxyServer.receive [("HTTP/1.1 200 OK\r\nContent-Length: 10\r\n\r\nab")] =
      .ok ((("HTTP/1.1 200 OK\r\nContent-Length: 10")), (("ab"))) := by
  constructor
  · intro chunks
    induction chunks with
    | nil =>
      intro size received payload hne hlt
      show payload = payload ++ strJoin []
      rw [show strJoin [] = ("") from rfl, strAppend_empty]
    | cons c rest ih =>
      intro size received payload hne hlt
      have hc : c ≠ ("") := hne c (List.mem_cons_self c rest)
      have hclen : ¬ (c.length = 0) := fun h => hc (strLength_zero c h)
      have htot : (totalLen (c :: rest) : Int) = (c.length : Int) + (totalLen rest : Int) := by
        simp [totalLen]
      rw [htot] at hlt
      have hrec : (received : Int) < size := by
        have h0 : (0 : Int) ≤ (c.length : Int) := Int.ofNat_nonneg _
        have h1 : (0 : Int) ≤ (totalLen rest : Int) := Int.ofNat_nonneg _
        omega
      show ProxyServer.bodyLoop size (c :: rest) received payload = _
      unfold ProxyServer.bodyLoop
      rw [if_pos hrec, if_neg hclen]
      have hnext := ih size (received + c.length) (payload ++ c)
        (fun x hx => hne x (List.mem_cons_of_mem c hx))
        (by push_cast; omega)
      rw [hnext, strAppend_assoc]
      rfl
  · decide

/-- C8 witness: the loop applied to a stream of two bytes against a
declared size of ten. -/
theorem C8_bodyLoop_witness :
    ProxyServer.bodyLoop 10 [("ab")] 0 (("")) = ("") ++ strJoin [("ab")] :=
  C8_bodyLoop_stops_at_closure.1 [("ab")] 10 0 (("")) (by decide) (by decide)

/-! ## Claim C10: the slash precondition of the cache path helpers -/

theorem rindexChar_isSome_of_mem {c : Char} {l : List Char} (h : c ∈ l) :
    rindexChar c l ≠ none := by
  induction l with
  | nil => cases h
  | cons x xs ih =>
    rcases List.mem_cons.mp h with h1 | h1
    · unfold rindexChar
      cases hr : rindexChar c xs with
      | some i => simp
      | none => simp [← h1]
    · have hs := ih h1
      unfold rindexChar
      cases hr : rindexChar c xs with
      | some i => simp
      | none => exact absurd hr hs

/-- C10: a path without a slash makes both cache_file and read_cache
raise the ValueError of str.rindex; and the path handle_get_request
passes them always has a slash, because an empty parsed path is
normalized to the root and a parsed path that begins with a slash keeps
it. -/
theorem C10_cache_path_precondition :
    (∀ (fs : FS) (host path payload : String), rindexChar '/' (chars path) = none →
      Cache.cache_file fs host path payload = .error .valueError ∧
      Cache.read_cache fs host path = .error .valueError) ∧
    (∀ p : String, (p = ("") ∨ (chars p).headD ' ' = '/') →
      rindexChar '/' (chars (ProxyServer.normalized_path p)) ≠ none) := by
  constructor
  · intro fs host path payload h
    have h2 : rindexChar '/' path.data = none := h
    constructor
    · unfold Cache.cache_file
      rw [h2]
    · unfold Cache.read_cache
      rw [h2]
  · intro p hp
    rcases hp with h | h
    · subst h
      decide
    · cases hd : chars p with
      | nil => rw [hd] at h; exact absurd h (by decide)
      | cons x xs =>
        rw [hd] at h
        have hx : x = '/' := by simpa using h
        have hmem : '/' ∈ chars p := by
          rw [hd, hx]
          exact List.mem_cons_self _ _
        have hlen : p.length > 0 := by
          show p.data.length > 0
          rw [show p.data = x :: xs from hd]
          simp
        unfold ProxyServer.normalized_path
        rw [if_pos hlen]
        exact rindexChar_isSome_of_mem hmem

/-- C10 witness: the precondition theorem at the slashless path abc and
at the empty parsed path. -/
theorem C10_cache_path_precondition_witness :
    (Cache.cache_file initFS (("h")) (("abc")) (("x")) = .error .valueError ∧
     Cache.read_cache initFS (("h")) (("abc")) = .error .valueError) ∧
    rindexChar '/' (chars (ProxyServer.normalized_path (("")))) ≠ none :=
  ⟨C10_cache_path_precondition.1 initFS (("h")) (("abc")) (("x")) (by decide),
   C10_cache_path_precondition.2 (("")) (Or.inl rfl)⟩

/-! ## Claims C1 and C2: the cache bugs -/

/-- C1 (code bug): on the spec's own Scenario 1 and 2 input, the first
GET is served 200 hello and caches the payload, but under the file name
a.htmlroot (cache_file appends the default file name whenever the path's
only slash is leading) while contains checks a.html; so the cache never
reports the entry, the second identical GET opens an origin connection
again and is answered with Cache-Hit: 0, not from the cache. -/
theorem C1_second_get_misses_cache :
    (ProxyServer.handle_connection initFS envScenario).toOption.map
        (fun r => (r.response, Cache.contains r.fs (("example.test")) (("/a.html")))) =
      some ((("HTTP/1.1 200 OK\r\nContent-Length: 5\r\nCache-Hit: 0\r\n\r\nhello")), false) ∧
    ((ProxyServer.handle_connection initFS envScenario).bind
        (fun r => ProxyServer.handle_connection r.fs envScenario)).toOption.map
        (fun r => (r.contacted, pyContains (("Cache-Hit: 1")) r.response, r.response)) =
      some (true, false, (("HTTP/1.1 200 OK\r\nContent-Length: 5\r\nCache-Hit: 0\r\n\r\nhello"))) ∧
    (ProxyServer.handle_connection initFS envScenario).toOption.map
        (fun r => r.fs.files) =
      some [((("./cache/example.test/a.htmlroot")), (("hello")))] := by
  exact ⟨by decide, by decide, by decide⟩

/-- C2 (code bug): get_path performs no separator substitution at all
(despite its docstring): the computed path keeps every slash of the
concatenated host and path, so the key is not a flat filename, and two
distinct host and path pairs can collide on the same file path. -/
theorem C2_get_path_keeps_separators_and_collides :
    Cache.get_path (("example.test")) (("/a.html")) = ("./cache/example.test/a.html") ∧
    '/' ∈ chars ((("example.test")) ++ (("/a.html"))) ∧
    Cache.get_path (("ab")) (("/c")) = Cache.get_path (("a")) (("b/c")) ∧
    ((("ab")), (("/c"))) ≠ ((("a")), (("b/c"))) := by
  exact ⟨by decide, by decide, by decide, by decide⟩

/-! ## Claim C9: error handling at the connection boundary -/

/-- C9 counterexample: a GET for http://h/a/ whose origin answers 200
makes the cache write address the directory just created for the path,
the IsADirectoryError escapes handle_connection uncaught (the socket is
never closed) and, since the accept loop catches only
KeyboardInterrupt, the serving process dies. -/
theorem C9_counterexample_uncaught_crash :
    ProxyServer.handle_connection initFS envDirPath = .error .isADirectoryError ∧
    ProxyServer.process_survives initFS envDirPath = false := by
  exact ⟨by decide, by decide⟩

/-- C9 (amended): a failure while receiving the client's message is
caught and turned into the 500 response with the socket still closed;
but an exception raised by the request handling itself (for example a
cache write failure) propagates out of handle_connection unchanged,
skipping both the response and the close; when the handling returns
normally its response is sent and the socket closed. -/
theorem C9_error_handling (fs : FS) (env : Env) :
    (∀ e : PyErr, env.sendOk = true → ProxyServer.receive env.clientChunks = .error e →
      ProxyServer.handle_connection fs env = .ok ⟨serverError500.repr, fs, false⟩) ∧
    (∀ (hp : String × String) (e : PyErr),
      ProxyServer.receive env.clientChunks = .ok hp →
      ProxyServer.handle_http_request fs env hp.1 hp.2 = .error e →
      ProxyServer.handle_connection fs env = .error e) ∧
    (∀ (hp : String × String) (step : String × FS × Bool), env.sendOk = true →
      ProxyServer.receive env.clientChunks = .ok hp →
      ProxyServer.handle_http_request fs env hp.1 hp.2 = .ok step →
      ProxyServer.handle_connection fs env = .ok ⟨step.1, step.2.1, step.2.2⟩) := by
  refine ⟨fun e hsend hrecv => ?_, fun hp e hrecv hh => ?_,
    fun hp step hsend hrecv hh => ?_⟩
  · unfold ProxyServer.handle_connection
    rw [hrecv, hsend]
    rfl
  · unfold ProxyServer.handle_connection
    rw [hrecv]
    show (ProxyServer.handle_http_request fs env hp.1 hp.2 >>= _) = _
    rw [hh]
    rfl
  · unfold ProxyServer.handle_connection
    rw [hrecv]
    show (ProxyServer.handle_http_request fs env hp.1 hp.2 >>= _) = _
    rw [hh, hsend]
    rfl

/-- C9 witness: the caught path on a client message with a malformed
Content-Length, and the uncaught path on the directory-path cache write. -/
theorem C9_error_handling_witness :
    ProxyServer.handle_connection initFS envBadLength = .ok ⟨serverError500.repr, initFS, false⟩ ∧
    ProxyServer.handle_connection initFS envDirPath = .error .isADirectoryError := by
  constructor
  · exact (C9_error_handling initFS envBadLength).1 .valueError (by decide) (by decide)
  · exact (C9_error_handling initFS envDirPath).2.1
      ((("GET http://h/a/ HTTP/1.1")), (("")))
      .isADirectoryError (by decide) (by decide)

/-! ## Claim C6: the round trip -/

theorem digit_choice_isSome (n : Nat) :
    (digitVal (if n % 10 = 0 then '0' else if n % 10 = 1 then '1'
      else if n % 10 = 2 then '2' else if n % 10 = 3 then '3'
      else if n % 10 = 4 then '4' else if n % 10 = 5 then '5'
      else if n % 10 = 6 then '6' else if n % 10 = 7 then '7'
      else if n % 10 = 8 then '8' else '9')).isSome = true := by
  repeat' split
  all_goals decide

theorem natDigitsAux_digits (fuel : Nat) :
    ∀ (n : Nat), ∀ c ∈ natDigitsAux fuel n, (digitVal c).isSome = true := by
  induction fuel with
  | zero => intro n c hc; cases hc
  | succ fuel ih =>
    intro n c hc
    unfold natDigitsAux at hc
    dsimp only at hc
    split at hc
    · rcases List.mem_singleton.mp hc with h
      rw [h]
      exact digit_choice_isSome n
    · rcases List.mem_append.mp hc with h | h
      · exact ih (n / 10) c h
      · rcases List.mem_singleton.mp h with h
        rw [h]
        exact digit_choice_isSome n

theorem sign_chars (v : PyFloat) :
    ∀ x ∈ chars (if v.num < 0 then ("-") else ("")), x = '-' := by
  intro x hx
  split at hx
  · have e : chars (("-")) = ['-'] := by decide
    rw [e] at hx
    exact List.mem_singleton.mp hx
  · have e : chars (("")) = ([] : List Char) := by decide
    rw [e] at hx
    cases hx

theorem mem_natToStr_digit {c : Char} {n : Nat} (h : c ∈ chars (natToStr n)) :
    (digitVal c).isSome = true :=
  natDigitsAux_digits (n + 1) n c h

theorem versionToString_chars (v : PyFloat) :
    ∀ c ∈ chars (versionToString v),
      (digitVal c).isSome = true ∨ c = '.' ∨ c = '-' ∨ c = '/' := by
  intro c hc
  have hdot : chars ((".")) = ['.'] := by decide
  have hzero : chars (("0")) = ['0'] := by decide
  unfold versionToString at hc
  dsimp only at hc
  split at hc
  · have e : chars ((if v.num < 0 then ("-") else ("")) ++ natToStr v.num.natAbs ++ (".") ++ ("0")) =
        chars (if v.num < 0 then ("-") else ("")) ++ chars (natToStr v.num.natAbs) ++
          chars ((".")) ++ chars (("0")) := by
      show ((_ ++ _ ++ _ ++ _ : String)).data = _
      rw [String.data_append, String.data_append, String.data_append]
      rfl
    rw [e] at hc
    rcases List.mem_append.mp hc with h | h
    · rcases List.mem_append.mp h with h1 | h1
      · rcases List.mem_append.mp h1 with h2 | h2
        · exact Or.inr (Or.inr (Or.inl (sign_chars v c h2)))
        · exact Or.inl (mem_natToStr_digit h2)
      · rw [hdot] at h1
        exact Or.inr (Or.inl (List.mem_singleton.mp h1))
    · rw [hzero] at h
      rw [List.mem_singleton.mp h]
      exact Or.inl (by decide)
  · rename_i opt k hk heq
    generalize hM : v.num.natAbs * (10 ^ k / v.den) = M at hc
    have e : chars ((if v.num < 0 then ("-") else ("")) ++ natToStr (M / 10 ^ k) ++ (".") ++
          ofChars (padZeros k (natDigitsAux (M % 10 ^ k + 1) (M % 10 ^ k)))) =
        chars (if v.num < 0 then ("-") else ("")) ++ chars (natToStr (M / 10 ^ k)) ++
          chars ((".")) ++ padZeros k (natDigitsAux (M % 10 ^ k + 1) (M % 10 ^ k)) := by
      show ((_ ++ _ ++ _ ++ _ : String)).data = _
      rw [String.data_append, String.data_append, String.data_append]
      rfl
    rw [e] at hc
    rcases List.mem_append.mp hc with h | h
    · rcases List.mem_append.mp h with h1 | h1
      · rcases List.mem_append.mp h1 with h2 | h2
        · exact Or.inr (Or.inr (Or.inl (sign_chars v c h2)))
        · exact Or.inl (mem_natToStr_digit h2)
      · rw [hdot] at h1
        exact Or.inr (Or.inl (List.mem_singleton.mp h1))
    · rcases List.mem_append.mp h with h3 | h3
      · rw [List.eq_of_mem_replicate h3]
        exact Or.inl (by decide)
      · exact Or.inl (natDigitsAux_digits _ _ c h3)
  · have e : chars ((if v.num < 0 then ("-") else ("")) ++ natToStr v.num.natAbs) =
        chars (if v.num < 0 then ("-") else ("")) ++ chars (natToStr v.num.natAbs) := by
      show ((_ ++ _ : String)).data = _
      rw [String.data_append]
      rfl
    rw [e] at hc
    rcases List.mem_append.mp hc with h | h
    · exact Or.inr (Or.inr (Or.inl (sign_chars v c h)))
    · exact Or.inl (mem_natToStr_digit h)

theorem versionToString_no_space (v : PyFloat) : ' ' ∉ chars (versionToString v) := by
  intro h
  rcases versionToString_chars v ' ' h with h1 | h1 | h1 | h1 <;> exact absurd h1 (by decide)

theorem versionToString_no_cr (v : PyFloat) : '\r' ∉ chars (versionToString v) := by
  intro h
  rcases versionToString_chars v '\r' h with h1 | h1 | h1 | h1 <;> exact absurd h1 (by decide)

theorem versionToString_no_H (v : PyFloat) : 'H' ∉ chars (versionToString v) := by
  intro h
  rcases versionToString_chars v 'H' h with h1 | h1 | h1 | h1 <;> exact absurd h1 (by decide)

theorem repr_foldl_chars (hs : List (String × String)) (init : String) :
    chars (hs.foldl (fun acc kv => acc ++ kv.1 ++ (": ") ++ kv.2 ++ HTTPprotocol.delimiter) init) =
      chars init ++ flatLines hs := by
  induction hs generalizing init with
  | nil => simp [flatLines]
  | cons kv t ih =>
    show chars (t.foldl _ (init ++ kv.1 ++ (": ") ++ kv.2 ++ HTTPprotocol.delimiter)) = _
    rw [ih]
    have e : chars (init ++ kv.1 ++ (": ") ++ kv.2 ++ HTTPprotocol.delimiter) =
        chars init ++ chars kv.1 ++ [':', ' '] ++ chars kv.2 ++ ['\r', '\n'] := by
      show ((_ ++ _ ++ _ ++ _ ++ _ : String)).data = _
      rw [String.data_append, String.data_append, String.data_append, String.data_append]
      rfl
    rw [e]
    simp [flatLines, List.append_assoc]

theorem block_eq (hs : List (String × String)) (tail : List Char) :
    '\r' :: '\n' :: (flatLines hs ++ '\r' :: '\n' :: tail) =
      hdrBlockL hs ++ '\r' :: '\n' :: '\r' :: '\n' :: tail := by
  induction hs with
  | nil => rfl
  | cons kv t ih =>
    simp only [flatLines, hdrBlockL, List.cons_append, List.append_assoc]
    rw [← ih]

theorem repr_shape (r : HTTPrequest) :
    chars r.repr = (firstLineL r ++ hdrBlockL r.headers) ++ chars (("\r\n\r\n")) ++ chars r.body := by
  unfold HTTPrequest.repr
  dsimp only
  have e1 : ∀ X : String, chars (X ++ HTTPprotocol.delimiter ++ r.body) =
      chars X ++ ['\r', '\n'] ++ chars r.body := by
    intro X
    show ((_ ++ _ ++ _ : String)).data = _
    rw [String.data_append, String.data_append]
    rfl
  rw [e1, repr_foldl_chars]
  have e2 : chars (r.method ++ (" ") ++ r.uri ++ (" HTTP/") ++ versionToString r.version ++
        HTTPprotocol.delimiter) =
      chars r.method ++ [' '] ++ chars r.uri ++ [' ', 'H', 'T', 'T', 'P', '/'] ++
        chars (versionToString r.version) ++ ['\r', '\n'] := by
    show ((_ ++ _ ++ _ ++ _ ++ _ ++ _ : String)).data = _
    rw [String.data_append, String.data_append, String.data_append, String.data_append,
        String.data_append]
    rfl
  rw [e2]
  have e3 : chars ((("\r\n\r\n"))) = ['\r', '\n', '\r', '\n'] := by decide
  rw [e3]
  simp only [firstLineL, List.cons_append, List.append_assoc, List.nil_append]
  rw [← block_eq r.headers (chars r.body)]
  have e4 : chars ((("HTTP/"))) = ['H', 'T', 'T', 'P', '/'] := by decide
  rw [e4]
  simp [List.append_assoc]

theorem noTermBreak_of_noCR {l : List Char} (h : '\r' ∉ l) : NoTermBreak l := by
  intro i hi
  exact absurd (List.getElem?_mem hi) h

theorem noTermBreak_append_line {X line : List Char} (hX : NoTermBreak X)
    (hline : '\r' ∉ line) (hne : line ≠ []) :
    NoTermBreak (X ++ '\r' :: '\n' :: line) := by
  intro i hi
  by_cases hcase : i < X.length
  · rw [List.getElem?_append_left hcase] at hi
    obtain ⟨h1, ch, h2, h3⟩ := hX i hi
    have hlt1 : i + 1 < X.length := (List.getElem?_eq_some.mp h1).1
    have hlt2 : i + 2 < X.length := (List.getElem?_eq_some.mp h2).1
    refine ⟨?_, ch, ?_, h3⟩
    · rw [List.getElem?_append_left hlt1]
      exact h1
    · rw [List.getElem?_append_left hlt2]
      exact h2
  · have hge : X.length ≤ i := Nat.le_of_not_lt hcase
    rw [List.getElem?_append_right hge] at hi
    rcases hk : i - X.length with _ | k
    · rw [hk] at hi
      constructor
      · rw [List.getElem?_append_right (by omega)]
        have e : i + 1 - X.length = 1 := by omega
        rw [e]
        simp
      · cases hl : line with
        | nil => exact absurd hl hne
        | cons c cs =>
          refine ⟨c, ?_, ?_⟩
          · rw [List.getElem?_append_right (by omega)]
            have e : i + 2 - X.length = 2 := by omega
            rw [e]
            simp
          · intro hcr
            rw [hl] at hline
            exact hline (hcr ▸ List.mem_cons_self c cs)
    · rw [hk] at hi
      have hmem : '\r' ∈ '\n' :: line := by
        rw [List.getElem?_cons_succ] at hi
        exact List.getElem?_mem hi
      rcases List.mem_cons.mp hmem with h | h
      · exact absurd h (by decide)
      · exact absurd h hline

theorem noTermBreak_hdrBlock (hs : List (String × String)) :
    ∀ (X : List Char), NoTermBreak X →
      (∀ kv ∈ hs, '\r' ∉ chars kv.1 ∧ '\r' ∉ chars kv.2) →
      NoTermBreak (X ++ hdrBlockL hs) := by
  induction hs with
  | nil =>
    intro X hX _
    simpa [hdrBlockL] using hX
  | cons kv t ih =>
    intro X hX hh
    have hkv := hh kv (List.mem_cons_self kv t)
    have hline : '\r' ∉ chars kv.1 ++ ':' :: ' ' :: chars kv.2 := by
      intro hm
      rcases List.mem_append.mp hm with h | h
      · exact hkv.1 h
      · rcases List.mem_cons.mp h with h | h
        · exact absurd h (by decide)
        · rcases List.mem_cons.mp h with h | h
          · exact absurd h (by decide)
          · exact hkv.2 h
    have hne : chars kv.1 ++ ':' :: ' ' :: chars kv.2 ≠ [] := by
      intro h
      have := congrArg List.length h
      simp at this
    have step := noTermBreak_append_line hX hline hne
    have hrw : X ++ hdrBlockL (kv :: t) =
        (X ++ '\r' :: '\n' :: (chars kv.1 ++ ':' :: ' ' :: chars kv.2)) ++ hdrBlockL t := by
      simp [hdrBlockL, List.append_assoc]
    rw [hrw]
    exact ih _ step (fun kv2 h2 => hh kv2 (List.mem_cons_of_mem kv h2))

theorem isPrefixL_getElem {p l : List Char} (h : isPrefixL p l = true) :
    ∀ j, j < p.length → l[j]? = p[j]? := by
  induction p generalizing l with
  | nil => intro j hj; simp at hj
  | cons a as ih =>
    cases l with
    | nil => simp [isPrefixL] at h
    | cons b bs =>
      simp only [isPrefixL, Bool.and_eq_true, decide_eq_true_eq] at h
      intro j hj
      cases j with
      | zero => simp [h.1]
      | succ k =>
        rw [List.getElem?_cons_succ, List.getElem?_cons_succ]
        exact ih h.2 k (by simpa using hj)

theorem no_start_of_noTermBreak {X : List Char} (hX : NoTermBreak X) (t : List Char) :
    ∀ i, i < X.length → isPrefixL (chars (("\r\n\r\n"))) ((X ++ t).drop i) = false := by
  intro i hi
  cases hp : isPrefixL (chars (("\r\n\r\n"))) ((X ++ t).drop i) with
  | false => rfl
  | true =>
    exfalso
    have hsep : chars ((("\r\n\r\n"))) = ['\r', '\n', '\r', '\n'] := by decide
    rw [hsep] at hp
    have h0 : ((X ++ t).drop i)[0]? = some '\r' := by
      rw [isPrefixL_getElem hp 0 (by decide)]
      decide
    have h2 : ((X ++ t).drop i)[2]? = some '\r' := by
      rw [isPrefixL_getElem hp 2 (by decide)]
      decide
    rw [List.getElem?_drop] at h0 h2
    rw [Nat.add_zero] at h0
    rw [List.getElem?_append_left hi] at h0
    obtain ⟨_, ch, hch, hchne⟩ := hX i h0
    have hlt2 : i + 2 < X.length := (List.getElem?_eq_some.mp hch).1
    rw [List.getElem?_append_left hlt2] at h2
    rw [h2] at hch
    exact hchne (Option.some.inj hch).symm

theorem splitOnL_sep4_boundary {X : List Char} (hX : NoTermBreak X) (b : List Char) :
    splitOnL (chars (("\r\n\r\n"))) (X ++ chars (("\r\n\r\n")) ++ b) =
      X :: splitOnL (chars (("\r\n\r\n"))) b := by
  apply splitOnL_boundary_cond _ X b (by decide)
  exact no_start_of_noTermBreak hX _

/-- C6 counterexample: parsing a serialized request never recovers its
headers: the round trip of a request carrying an Accept header returns
the request with an empty header map, which differs from the original. -/
theorem C6_counterexample_headers_lost :
    roundTripRequest reqWithHeader =
      .ok ⟨("GET"), ("http://h/a"), ⟨11, 10⟩, [], ("hello")⟩ ∧
    (⟨("GET"), ("http://h/a"), ⟨11, 10⟩, [], ("hello")⟩ : HTTPrequest) ≠ reqWithHeader := by
  exact ⟨by decide, by decide⟩

/-- C6 (amended): for a well-formed request (no spaces or carriage
returns inside method and URI, a version whose rendering parses back to
itself, header names and values free of carriage returns, and a body
without a header terminator), serializing and parsing back preserves
method, URI, version and body, but always yields an empty headers map:
the parser reads only the request line, so all client headers are
dropped. -/
theorem C6_roundtrip_drops_headers (r : HTTPrequest)
    (hm1 : ' ' ∉ chars r.method) (hm2 : '\r' ∉ chars r.method)
    (hu1 : ' ' ∉ chars r.uri) (hu2 : '\r' ∉ chars r.uri)
    (hv : parsePyFloat (versionToString r.version) = some r.version)
    (hh : ∀ kv ∈ r.headers, '\r' ∉ chars kv.1 ∧ '\r' ∉ chars kv.2)
    (hb : findSub (chars (("\r\n\r\n"))) (chars r.body) = none) :
    roundTripRequest r = .ok ⟨r.method, r.uri, r.version, [], r.body⟩ := by
  have hflcr : '\r' ∉ firstLineL r := by
    intro hm
    unfold firstLineL at hm
    simp only [List.mem_append, List.mem_cons, or_assoc] at hm
    rcases hm with h | h | h | h | h | h <;>
      first
        | exact hm2 h
        | exact hu2 h
        | exact versionToString_no_cr r.version h
        | exact absurd h (by decide)
  have hX : NoTermBreak (firstLineL r ++ hdrBlockL r.headers) :=
    noTermBreak_hdrBlock r.headers (firstLineL r) (noTermBreak_of_noCR hflcr) hh
  have hsplit : splitOnL (chars (("\r\n\r\n"))) (chars r.repr) =
      (firstLineL r ++ hdrBlockL r.headers) :: [chars r.body] := by
    rw [repr_shape r, splitOnL_sep4_boundary hX, splitOnL_no_occur _ _ hb]
  have htok : pySplit HTTPprotocol.header_delimiter r.repr =
      [ofChars (firstLineL r ++ hdrBlockL r.headers), r.body] := by
    show (splitOnL (chars (("\r\n\r\n"))) (chars r.repr)).map ofChars = _
    rw [hsplit]
    rfl
  have hbuild := build_from_raw_shape (chars r.method) (chars r.uri)
      (chars (versionToString r.version)) (hdrBlockL r.headers) r.version
      hm1 hm2 hu1 hu2
      (versionToString_no_space r.version) (versionToString_no_cr r.version)
      (versionToString_no_H r.version)
      (by rw [ofChars_data]; exact hv)
      (by cases r.headers with
          | nil => exact Or.inl rfl
          | cons kv t => exact Or.inr ⟨chars kv.1 ++ ':' :: ' ' :: chars kv.2 ++ hdrBlockL t, rfl⟩)
  have harg : HTTPrequest.build_from_raw (ofChars (firstLineL r ++ hdrBlockL r.headers)) =
      .ok ⟨ofChars (chars r.method), ofChars (chars r.uri), r.version, [], ("")⟩ := hbuild
  unfold roundTripRequest
  dsimp only
  rw [htok]
  have hhd : ([ofChars (firstLineL r ++ hdrBlockL r.headers), r.body] : List String).headD ("") =
      ofChars (firstLineL r ++ hdrBlockL r.headers) := rfl
  rw [hhd, harg]
  rfl

/-- C6 witness: the round trip theorem at a concrete request with one
header; the method, URI, version and body survive, the header map comes
back empty. -/
theorem C6_roundtrip_witness :
    roundTripRequest ⟨("GET"), ("http://h/a"), ⟨11, 10⟩, [(("Accept"), ("text/html"))], ("hi")⟩ =
      .ok ⟨("GET"), ("http://h/a"), ⟨11, 10⟩, [], ("hi")⟩ :=
  C6_roundtrip_drops_headers
    ⟨("GET"), ("http://h/a"), ⟨11, 10⟩, [(("Accept"), ("text/html"))], ("hi")⟩
    (by decide) (by decide) (by decide) (by decide) (by decide) (by decide) (by decide)
